import Mathlib

/-!
Barbershop booking API: slot availability engine and barbers router.

A shallow embedding of the barbershop booking backend (`src/migrate.js`,
the barbers router) together with its slot availability engine.  The
engine (`generateTimeSlots`, `isDateInPast`) lives in `utils/timeSlots.js`,
which is not part of the provided sources — only its call sites are — so
those two functions are modelled from the specification's algorithm
(spec §4.1 and §4.2); the router handlers are translated from the source.
-/

/-- A character is an ASCII decimal digit (`\d` in the validation regex):
its code point lies between 48 (`0`) and 57 (`9`). -/
def isDigitChar (c : Char) : Bool :=
  48 ≤ c.toNat && c.toNat ≤ 57

/-- Numeric value of a digit character: code point minus 48. -/
def digitVal (c : Char) : Nat :=
  c.toNat - 48

/-- Modelled from the spec: step 1 of the slot-generator algorithm in
§4.1 of the spec, "Parse `openTime`/`closeTime` into minutes-since-midnight".
The missing source is `utils/timeSlots.js`.  A `HH:MM` wall-clock string is
decomposed into its four digit characters; anything that is not of that
five-character shape parses to 0. -/
def parseTimeMinutes (s : String) : Nat :=
  match s.toList with
  | [h1, h2, _, m1, m2] =>
      60 * (10 * digitVal h1 + digitVal h2) + (10 * digitVal m1 + digitVal m2)
  | _ => 0

/-- Two-digit zero-padded decimal rendering of `n < 100`, as a char list. -/
def pad2 (n : Nat) : List Char :=
  [Nat.digitChar (n / 10), Nat.digitChar (n % 10)]

/-- Modelled from the spec: the `HH:MM` formatting of a
minutes-since-midnight value used by the slot generator of
`utils/timeSlots.js` (spec §3, "TimeSlot: a computed value with `time`
(`HH:MM`)"). -/
def formatTime (t : Nat) : String :=
  ⟨pad2 (t / 60) ++ [':'] ++ pad2 (t % 60)⟩

/-- The strings `HH:MM` are well formed when they are five characters,
digits around a colon (spec §3: wall-clock times in `HH:MM` format). -/
def isValidTimeString (s : String) : Bool :=
  match s.toList with
  | [h1, h2, c, m1, m2] =>
      isDigitChar h1 && isDigitChar h2 && (c == ':') && isDigitChar m1 && isDigitChar m2
  | _ => false

/-- Modelled from the spec: step 2 of the slot-generator algorithm of
`utils/timeSlots.js` (spec §4.1): "Starting at `openTime`, step forward by
`durationMinutes` repeatedly; for each step `t` where
`t + durationMinutes ≤ closeTime`, emit a candidate slot at `t`."  The
loop is written with an explicit iteration bound `fuel`; `slotTimes`
supplies enough fuel for the loop to run to completion. -/
def slotTimesAux (d close : Nat) : Nat → Nat → List Nat
  | 0, _ => []
  | fuel + 1, start =>
      if start + d ≤ close then start :: slotTimesAux d close fuel (start + d) else []

/-- The candidate slot start times, in minutes since midnight.  A
non-positive duration is a caller precondition violation (spec §4.1);
the model emits no slots for it. -/
def slotTimes (start close d : Nat) : List Nat :=
  if 0 < d then slotTimesAux d close (close + 1) start else []

/-- A reservation marker as consumed by the slot generator: only its
`time` field (`HH:MM` start of an existing booking) is inspected. -/
structure Reservation where
  time : String
deriving DecidableEq, Repr

/-- A generated slot: a `time` (`HH:MM`) and an availability flag
(spec §3, TimeSlot). -/
structure TimeSlot where
  time : String
  available : Bool
deriving DecidableEq, Repr

/-- Modelled from the spec: the slot generator of `utils/timeSlots.js`
(spec §4.1): parse the window, tile it by the duration, and mark each
candidate unavailable exactly when its formatted `HH:MM` string equals
the `time` field of some entry of `existingReservations`. -/
def generateTimeSlots (openTime closeTime : String) (durationMinutes : Nat)
    (existingReservations : List Reservation) : List TimeSlot :=
  (slotTimes (parseTimeMinutes openTime) (parseTimeMinutes closeTime) durationMinutes).map
    (fun t =>
      ⟨formatTime t, !existingReservations.any (fun r => r.time == formatTime t)⟩)

-- Sanity checks of the model on the spec's worked examples.
example : slotTimes 600 720 45 = [600, 645] := by decide
example : (generateTimeSlots "10:00" "12:00" 45 []).length = 2 := by decide
example : generateTimeSlots "10:00" "12:00" 45 [] =
    [⟨"10:00", true⟩, ⟨"10:45", true⟩] := by decide
example : (generateTimeSlots "09:00" "18:00" 30 [⟨"10:00"⟩]).length = 18 := by decide

/-! Closed form of the stepping loop. -/

theorem slotTimesAux_eq_range (d close : Nat) (hd : 0 < d) :
    ∀ fuel start, (close - start) / d < fuel →
      slotTimesAux d close fuel start =
        (List.range ((close - start) / d)).map (fun k => start + k * d) := by
  intro fuel
  induction fuel with
  | zero => intro start h; exact absurd h (Nat.not_lt_zero _)
  | succ fuel ih =>
    intro start h
    by_cases hle : start + d ≤ close
    · have hq : (close - start) / d = (close - (start + d)) / d + 1 := by
        have hsub : close - start - d = close - (start + d) := by omega
        rw [Nat.div_eq_sub_div hd (by omega : d ≤ close - start), hsub]
      rw [slotTimesAux, if_pos hle, hq, List.range_succ_eq_map, List.map_cons,
        List.map_map, ih (start + d) (by omega)]
      refine congrArg₂ List.cons (by ring) (List.map_congr_left fun k _ => ?_)
      simp only [Function.comp_apply, Nat.succ_eq_add_one]
      ring
    · rw [slotTimesAux, if_neg hle,
        Nat.div_eq_of_lt (by omega : close - start < d), List.range_zero, List.map_nil]

theorem slotTimes_eq_range (start close d : Nat) :
    slotTimes start close d =
      (List.range ((close - start) / d)).map (fun k => start + k * d) := by
  unfold slotTimes
  by_cases hd : 0 < d
  · rw [if_pos hd]
    refine slotTimesAux_eq_range d close hd (close + 1) start ?_
    have := Nat.div_le_self (close - start) d
    omega
  · have hz : d = 0 := by omega
    rw [if_neg hd, hz, Nat.div_zero, List.range_zero, List.map_nil]

theorem lt_div_iff_mul_add (b d k : Nat) (hd : 0 < d) :
    k < b / d ↔ k * d + d ≤ b := by
  rw [Nat.lt_iff_add_one_le, Nat.le_div_iff_mul_le hd, Nat.add_mul, Nat.one_mul]

/-- Membership characterization of the generated slot start times. -/
theorem mem_slotTimes (start close d t : Nat) (hd : 0 < d) :
    t ∈ slotTimes start close d ↔
      ∃ k, t = start + k * d ∧ start + k * d + d ≤ close := by
  rw [slotTimes_eq_range]
  simp only [List.mem_map, List.mem_range]
  constructor
  · rintro ⟨k, hk, rfl⟩
    refine ⟨k, rfl, ?_⟩
    rw [lt_div_iff_mul_add _ _ _ hd] at hk
    have hx : ∀ x, x + d ≤ close - start → start + x + d ≤ close := by intro x; omega
    exact hx (k * d) hk
  · rintro ⟨k, rfl, hk⟩
    refine ⟨k, ?_, rfl⟩
    rw [lt_div_iff_mul_add _ _ _ hd]
    have hx : ∀ x, start + x + d ≤ close → x + d ≤ close - start := by intro x; omega
    exact hx (k * d) hk

theorem slotTimes_bounded (start close d : Nat) :
    ∀ t ∈ slotTimes start close d, t + d ≤ close := by
  intro t ht
  by_cases hd : 0 < d
  · rw [mem_slotTimes _ _ _ _ hd] at ht
    obtain ⟨k, rfl, hk⟩ := ht
    exact hk
  · have hz : d = 0 := by omega
    rw [slotTimes, if_neg hd] at ht
    exact absurd ht (List.not_mem_nil t)

theorem slotTimes_pairwise (start close d : Nat) (hd : 0 < d) :
    (slotTimes start close d).Pairwise (· < ·) := by
  rw [slotTimes_eq_range]
  refine (List.pairwise_map).2 ?_
  refine (List.pairwise_lt_range _).imp ?_
  intro a b hab
  have := (Nat.mul_lt_mul_right hd).2 hab
  omega

/-! Formatting round trip. -/

theorem digitVal_digitChar (k : Nat) (hk : k < 10) :
    digitVal (Nat.digitChar k) = k := by
  interval_cases k <;> decide

/-- Formatting a minutes value below `6000` (every 24-hour wall-clock
value is below `1440`) and parsing it back is the identity. -/
theorem parse_formatTime (t : Nat) (ht : t < 6000) :
    parseTimeMinutes (formatTime t) = t := by
  have h60 : t / 60 < 100 := by omega
  unfold formatTime parseTimeMinutes pad2
  simp only [List.cons_append, List.nil_append, String.toList]
  rw [digitVal_digitChar _ (by omega), digitVal_digitChar _ (by omega),
    digitVal_digitChar _ (by omega), digitVal_digitChar _ (by omega)]
  omega

/-! The date validator (spec §4.2). -/

/-- A calendar date, the parse of a `YYYY-MM-DD` string. -/
structure Date where
  year : Nat
  month : Nat
  day : Nat
deriving DecidableEq, Repr

/-- Modelled from the spec: the decomposition of a `YYYY-MM-DD` input of
`isDateInPast` in the missing `utils/timeSlots.js` (spec §4.2).  Strings
not of that ten-character shape parse to the zero date. -/
def parseDate (s : String) : Date :=
  match s.toList with
  | [y1, y2, y3, y4, _, m1, m2, _, d1, d2] =>
      ⟨1000 * digitVal y1 + 100 * digitVal y2 + 10 * digitVal y3 + digitVal y4,
       10 * digitVal m1 + digitVal m2,
       10 * digitVal d1 + digitVal d2⟩
  | _ => ⟨0, 0, 0⟩

/-- A linearization of the calendar (the analogue of the epoch timestamp
a JS `Date` comparison uses): strictly monotone on valid dates. -/
def dayIndex (dt : Date) : Nat :=
  372 * dt.year + 31 * dt.month + dt.day

/-- Modelled from the spec: `isDateInPast` of the missing
`utils/timeSlots.js` (spec §4.2): "a date strictly earlier than the
current calendar day is in the past", compared against `today` at the
midnight boundary.  `today` is the frozen reference moment. -/
def isDateInPast (dateString : String) (today : Date) : Bool :=
  decide (dayIndex (parseDate dateString) < dayIndex today)

/-- Strict calendar order on dates, written out lexicographically. -/
def Date.earlier (a b : Date) : Prop :=
  a.year < b.year ∨
    (a.year = b.year ∧
      (a.month < b.month ∨ (a.month = b.month ∧ a.day < b.day)))

/-- A date is a real calendar day: month in `1..12`, day in `1..31`. -/
def Date.isValid (dt : Date) : Prop :=
  1 ≤ dt.month ∧ dt.month ≤ 12 ∧ 1 ≤ dt.day ∧ dt.day ≤ 31

/-! The barbers router (`src/migrate.js`, demo mode). -/

/-- A barber record, as in the `demoBarbers` fixture of the source. -/
structure Barber where
  id : String
  userId : String
  fullName : String
  email : String
  phone : String
  manualLocation : String
  haircutDuration : Nat
  openTime : String
  closeTime : String
deriving DecidableEq, Repr

/-- The `demoBarbers` fixture of `src/migrate.js`. -/
def demoBarbers : List Barber :=
  [⟨"barber-1", "user-1", "John Smith", "john@barbershop.com", "555-0101",
      "Downtown Barbershop", 30, "09:00", "18:00"⟩,
   ⟨"barber-2", "user-2", "Mike Johnson", "mike@barbershop.com", "555-0102",
      "Uptown Cuts", 45, "08:00", "19:00"⟩,
   ⟨"barber-3", "user-3", "David Wilson", "david@barbershop.com", "555-0103",
      "Downtown Barbershop", 30, "10:00", "17:00"⟩]

/-- A demo reservation record, as in the `demoReservations` fixture. -/
structure DemoReservation where
  id : String
  barberId : String
  clientId : String
  date : String
  time : String
deriving DecidableEq, Repr

/-- The initial `demoReservations` fixture of `src/migrate.js`.  The
list is mutable in the source (`addDemoReservation` pushes onto it), so
the handlers below take the current list as an explicit argument. -/
def demoReservations : List DemoReservation :=
  [⟨"res-1", "barber-1", "user-1752373590610", "2024-01-15", "10:00"⟩,
   ⟨"res-2", "barber-1", "user-1752373590610", "2024-01-15", "14:00"⟩]

/-- The Joi pattern check `^\d{4}-\d{2}-\d{2}$` of the schedule route:
ten characters, digit groups of four, two and two, separated by
hyphens. -/
def isValidDateFormat (s : String) : Bool :=
  match s.toList with
  | [y1, y2, y3, y4, c1, m1, m2, c2, d1, d2] =>
      isDigitChar y1 && isDigitChar y2 && isDigitChar y3 && isDigitChar y4 &&
        (c1 == '-') && isDigitChar m1 && isDigitChar m2 && (c2 == '-') &&
        isDigitChar d1 && isDigitChar d2
  | _ => false

/-- The response of `GET /barbers/:id/schedule`: a 400 with an error
message, a 404 with an error message, or a 200 carrying the barber, the
requested date and the generated slots. -/
inductive ScheduleResponse where
  | badRequest (error : String)
  | notFound (error : String)
  | ok (barber : Barber) (date : String) (timeSlots : List TimeSlot)
deriving DecidableEq, Repr

/-- The demo-mode branch of `GET /barbers/:id/schedule`
(`src/migrate.js` lines 183–237): require a date (a missing or empty
query value is falsy in the source's `!date` test), check the format
pattern, reject past dates, look the barber up, filter the current
reservations to this barber and date, and generate the slots.
`reservationsState` is the current in-memory reservation list and
`today` the reference day used by `isDateInPast`. -/
def getSchedule (reservationsState : List DemoReservation) (today : Date)
    (id : String) (date : Option String) : ScheduleResponse :=
  match date with
  | none => .badRequest "Date parameter is required"
  | some d =>
    if d.isEmpty then .badRequest "Date parameter is required"
    else if !isValidDateFormat d then
      .badRequest "Invalid date format. Use YYYY-MM-DD"
    else if isDateInPast d today then
      .badRequest "Cannot view schedule for past dates"
    else
      match demoBarbers.find? (fun b => b.id == id) with
      | none => .notFound "Barber not found"
      | some barber =>
          let existing :=
            reservationsState.filter (fun r => r.barberId == id && r.date == d)
          .ok barber d
            (generateTimeSlots barber.openTime barber.closeTime
              barber.haircutDuration (existing.map (fun r => ⟨r.time⟩)))

/-- Character-list prefix test, the helper of `strIncludes`. -/
def isPrefixList : List Char → List Char → Bool
  | [], _ => true
  | _ :: _, [] => false
  | a :: as, b :: bs => a == b && isPrefixList as bs

/-- Character-list substring test, the helper of `strIncludes`. -/
def isSubstrList : List Char → List Char → Bool
  | needle, [] => needle.isEmpty
  | needle, c :: rest => isPrefixList needle (c :: rest) || isSubstrList needle rest

/-- The JS `String.prototype.includes`: `needle` occurs contiguously in
`s`. -/
def strIncludes (s needle : String) : Bool :=
  isSubstrList needle.toList s.toList

/-- The JS `String.prototype.toLowerCase`, written over the character
list: lower-case every character. -/
def strToLower (s : String) : String :=
  ⟨s.toList.map Char.toLower⟩

/-- The demo-mode branch of `GET /barbers` (`src/migrate.js` lines
119–139): start from `demoBarbers`; when a `search` query value is
truthy (present and non-empty), keep barbers whose lowercased
`fullName` contains the lowercased query; then likewise for `location`
against `manualLocation`. -/
def listBarbersDemo (search location : Option String) : List Barber :=
  let afterSearch :=
    match search with
    | some s =>
        if s.isEmpty then demoBarbers
        else demoBarbers.filter (fun b =>
          strIncludes (strToLower b.fullName) (strToLower s))
    | none => demoBarbers
  match location with
  | some l =>
      if l.isEmpty then afterSearch
      else afterSearch.filter (fun b =>
        strIncludes (strToLower b.manualLocation) (strToLower l))
  | none => afterSearch

-- Sanity checks of the router model.
-- "john" also matches "Mike Johnson" via the substring "Johnson".
example : listBarbersDemo (some "john") none =
    [demoBarbers.get ⟨0, by decide⟩, demoBarbers.get ⟨1, by decide⟩] := by decide
example : listBarbersDemo none (some "DOWNTOWN") =
    [demoBarbers.get ⟨0, by decide⟩, demoBarbers.get ⟨2, by decide⟩] := by decide
example : getSchedule demoReservations ⟨2024, 1, 1⟩ "barber-9" (some "oops") =
    .badRequest "Invalid date format. Use YYYY-MM-DD" := by decide
example : getSchedule demoReservations ⟨2024, 1, 1⟩ "barber-9" (some "2024-06-01") =
    .notFound "Barber not found" := by decide

/-! Helper lemmas for the router. -/

theorem isSubstrList_nil (t : List Char) : isSubstrList [] t = true := by
  cases t <;> rfl

theorem strIncludes_of_isEmpty (x s : String) (hs : s.isEmpty = true) :
    strIncludes x (strToLower s) = true := by
  have hnil : s = "" := (String.isEmpty_iff s).1 hs
  subst hnil
  exact isSubstrList_nil _

theorem getSchedule_badRequest_of_invalid (reservationsState : List DemoReservation)
    (today : Date) (id : String) (d : String)
    (hbad : isValidDateFormat d = false ∨ isDateInPast d today = true) :
    ∃ msg, getSchedule reservationsState today id (some d) = .badRequest msg := by
  by_cases he : d.isEmpty = true
  · exact ⟨"Date parameter is required", by simp [getSchedule, he]⟩
  · rcases hbad with hf | hp
    · exact ⟨"Invalid date format. Use YYYY-MM-DD", by simp [getSchedule, he, hf]⟩
    · by_cases hf : isValidDateFormat d = true
      · exact ⟨"Cannot view schedule for past dates", by simp [getSchedule, he, hf, hp]⟩
      · exact ⟨"Invalid date format. Use YYYY-MM-DD", by simp [getSchedule, he, hf]⟩

/-! The claims. -/

/-- C1: a slot produced by `generateTimeSlots` for a valid operating
window and positive duration is marked unavailable if and only if its
formatted `HH:MM` start-time string exactly equals the `time` field of
some entry of `existingReservations`; every other slot is available. -/
theorem claim_C1_unavailable_iff_reserved
    (openTime closeTime : String) (durationMinutes : Nat)
    (existingReservations : List Reservation) (slot : TimeSlot)
    (hdur : 0 < durationMinutes)
    (hwin : parseTimeMinutes openTime < parseTimeMinutes closeTime)
    (hmem : slot ∈ generateTimeSlots openTime closeTime durationMinutes
        existingReservations) :
    slot.available = false ↔ ∃ r ∈ existingReservations, r.time = slot.time := by
  unfold generateTimeSlots at hmem
  rw [List.mem_map] at hmem
  obtain ⟨t, -, rfl⟩ := hmem
  simp [List.any_eq_true]

/-- Witness for C1: with one reservation at 09:30 in a 09:00–10:00
window, the 09:30 slot is produced unavailable. -/
theorem claim_C1_witness :
    (0 < 30 ∧ parseTimeMinutes "09:00" < parseTimeMinutes "10:00" ∧
        (⟨"09:30", false⟩ : TimeSlot) ∈
          generateTimeSlots "09:00" "10:00" 30 [⟨"09:30"⟩]) ∧
      ((⟨"09:30", false⟩ : TimeSlot).available = false ↔
        ∃ r ∈ [(⟨"09:30"⟩ : Reservation)],
          r.time = (⟨"09:30", false⟩ : TimeSlot).time) :=
  ⟨⟨by decide, by decide, by decide⟩,
    claim_C1_unavailable_iff_reserved "09:00" "10:00" 30 [⟨"09:30"⟩]
      ⟨"09:30", false⟩ (by decide) (by decide) (by decide)⟩

/-- C2: for a valid window and positive duration the produced slot
start times are exactly `openTime + k·duration` for as long as
`start + duration ≤ closeTime`; no slot overruns the close time, and
a trailing partial segment is never emitted. -/
theorem claim_C2_starts_tile_window
    (openTime closeTime : String) (durationMinutes : Nat)
    (existingReservations : List Reservation)
    (hdur : 0 < durationMinutes)
    (hwin : parseTimeMinutes openTime < parseTimeMinutes closeTime) :
    ((generateTimeSlots openTime closeTime durationMinutes existingReservations).map
          TimeSlot.time
        = (slotTimes (parseTimeMinutes openTime) (parseTimeMinutes closeTime)
            durationMinutes).map formatTime)
    ∧ (∀ t ∈ slotTimes (parseTimeMinutes openTime) (parseTimeMinutes closeTime)
          durationMinutes, t + durationMinutes ≤ parseTimeMinutes closeTime)
    ∧ (∀ t, t ∈ slotTimes (parseTimeMinutes openTime) (parseTimeMinutes closeTime)
          durationMinutes ↔
        ∃ k, t = parseTimeMinutes openTime + k * durationMinutes ∧
          t + durationMinutes ≤ parseTimeMinutes closeTime) := by
  refine ⟨?_, slotTimes_bounded _ _ _, ?_⟩
  · unfold generateTimeSlots
    rw [List.map_map]
    rfl
  · intro t
    rw [mem_slotTimes _ _ _ _ hdur]
    constructor
    · rintro ⟨k, rfl, hk⟩
      exact ⟨k, rfl, hk⟩
    · rintro ⟨k, rfl, hk⟩
      exact ⟨k, rfl, hk⟩

/-- Witness for C2 on the 09:00–10:00 window with 30-minute slots. -/
theorem claim_C2_witness :
    (0 < 30 ∧ parseTimeMinutes "09:00" < parseTimeMinutes "10:00") ∧
      (∀ t ∈ slotTimes (parseTimeMinutes "09:00") (parseTimeMinutes "10:00") 30,
        t + 30 ≤ parseTimeMinutes "10:00") :=
  ⟨⟨by decide, by decide⟩,
    (claim_C2_starts_tile_window "09:00" "10:00" 30 [] (by decide) (by decide)).2.1⟩

/-- C3: the window 09:00–18:00 with 30-minute slots yields exactly 18
slots, the first at 09:00 and the last starting at 17:30. -/
theorem claim_C3_coverage_09_18_30 :
    (generateTimeSlots "09:00" "18:00" 30 []).length = 18 ∧
      ((generateTimeSlots "09:00" "18:00" 30 []).map TimeSlot.time).head? =
        some "09:00" ∧
      ((generateTimeSlots "09:00" "18:00" 30 []).map TimeSlot.time).getLast? =
        some "17:30" := by
  decide

/-- C4: when the parsed open time is at or after the parsed close time
the generator produces no slots at all, for every duration and
reservation list. -/
theorem claim_C4_empty_window
    (openTime closeTime : String) (durationMinutes : Nat)
    (existingReservations : List Reservation)
    (hwin : parseTimeMinutes closeTime ≤ parseTimeMinutes openTime) :
    generateTimeSlots openTime closeTime durationMinutes existingReservations = [] := by
  unfold generateTimeSlots
  rw [slotTimes_eq_range, Nat.sub_eq_zero_of_le hwin, Nat.zero_div, List.range_zero,
    List.map_nil, List.map_nil]

/-- Witness for C4 on an inverted window. -/
theorem claim_C4_witness :
    parseTimeMinutes "09:00" ≤ parseTimeMinutes "18:00" ∧
      generateTimeSlots "18:00" "09:00" 30 [] = [] :=
  ⟨by decide, claim_C4_empty_window "18:00" "09:00" 30 [] (by decide)⟩

/-- C5: the generated slots are strictly ascending in start time, and
the generator is deterministic: equal arguments give equal output. -/
theorem claim_C5_sorted_deterministic
    (openTime closeTime : String) (durationMinutes : Nat)
    (existingReservations : List Reservation)
    (hclose : parseTimeMinutes closeTime < 1440) :
    List.Chain' (fun a b => parseTimeMinutes a.time < parseTimeMinutes b.time)
        (generateTimeSlots openTime closeTime durationMinutes existingReservations)
    ∧ generateTimeSlots openTime closeTime durationMinutes existingReservations
        = generateTimeSlots openTime closeTime durationMinutes existingReservations := by
  refine ⟨?_, rfl⟩
  by_cases hd : 0 < durationMinutes
  · unfold generateTimeSlots
    refine List.Pairwise.chain' ?_
    refine (List.pairwise_map).2 ?_
    refine List.Pairwise.imp_of_mem ?_
      (slotTimes_pairwise (parseTimeMinutes openTime) (parseTimeMinutes closeTime)
        durationMinutes hd)
    intro a b ha hb hab
    have hba := slotTimes_bounded _ _ _ a ha
    have hbb := slotTimes_bounded _ _ _ b hb
    show parseTimeMinutes (formatTime a) < parseTimeMinutes (formatTime b)
    rw [parse_formatTime a (by omega), parse_formatTime b (by omega)]
    exact hab
  · simp [generateTimeSlots, slotTimes, hd]

/-- Witness for C5 on the 09:00–10:00 window. -/
theorem claim_C5_witness :
    parseTimeMinutes "10:00" < 1440 ∧
      (List.Chain' (fun a b => parseTimeMinutes a.time < parseTimeMinutes b.time)
          (generateTimeSlots "09:00" "10:00" 30 []) ∧
        generateTimeSlots "09:00" "10:00" 30 []
          = generateTimeSlots "09:00" "10:00" 30 []) :=
  ⟨by decide, claim_C5_sorted_deterministic "09:00" "10:00" 30 [] (by decide)⟩

/-- C6: for a well-formed date whose parse is a real calendar day, and
any valid reference day, `isDateInPast` answers true exactly when the
parsed date is strictly earlier than the reference day in calendar
order. -/
theorem claim_C6_past_iff_earlier (s : String) (today : Date)
    (hs : (parseDate s).isValid) (ht : today.isValid) :
    isDateInPast s today = true ↔ (parseDate s).earlier today := by
  unfold isDateInPast
  rw [decide_eq_true_eq]
  unfold Date.isValid at hs ht
  unfold dayIndex Date.earlier
  omega

/-- Witness for C6: 2024-01-15 is in the past on 2024-01-16. -/
theorem claim_C6_witness :
    ((parseDate "2024-01-15").isValid ∧ (Date.mk 2024 1 16).isValid) ∧
      (isDateInPast "2024-01-15" ⟨2024, 1, 16⟩ = true ↔
        (parseDate "2024-01-15").earlier ⟨2024, 1, 16⟩) :=
  ⟨⟨by unfold Date.isValid; decide, by unfold Date.isValid; decide⟩,
    claim_C6_past_iff_earlier "2024-01-15" ⟨2024, 1, 16⟩
      (by unfold Date.isValid; decide) (by unfold Date.isValid; decide)⟩

/-- C7: the engine is total: on every input, `generateTimeSlots`
evaluates to an explicit closed-form list (never an error), and
`isDateInPast` evaluates to a boolean. -/
theorem claim_C7_total_engine :
    (∀ (openTime closeTime : String) (durationMinutes : Nat)
        (existingReservations : List Reservation),
      generateTimeSlots openTime closeTime durationMinutes existingReservations =
        ((List.range
              ((parseTimeMinutes closeTime - parseTimeMinutes openTime) /
                durationMinutes)).map
            (fun k => parseTimeMinutes openTime + k * durationMinutes)).map
          (fun t => ⟨formatTime t,
            !existingReservations.any (fun r => r.time == formatTime t)⟩))
    ∧ (∀ (s : String) (today : Date),
        isDateInPast s today = true ∨ isDateInPast s today = false) := by
  constructor
  · intro openTime closeTime durationMinutes existingReservations
    unfold generateTimeSlots
    rw [slotTimes_eq_range]
  · intro s today
    exact Bool.eq_false_or_eq_true _

/-- C8: the schedule handler validates the date format and rejects past
dates before the generator is ever involved, and never returns a
partial result: a 200 carries exactly the full generated slot sequence
for the looked-up barber, while every error response carries no slots. -/
theorem claim_C8_validate_before_generate
    (reservationsState : List DemoReservation) (today : Date)
    (id : String) (date : Option String) :
    (∀ d, date = some d →
        isValidDateFormat d = false ∨ isDateInPast d today = true →
        ∃ msg, getSchedule reservationsState today id date = .badRequest msg)
    ∧ (∀ b dt slots,
        getSchedule reservationsState today id date = .ok b dt slots →
        date = some dt ∧ isValidDateFormat dt = true ∧
          isDateInPast dt today = false ∧ b ∈ demoBarbers ∧ b.id = id ∧
          slots = generateTimeSlots b.openTime b.closeTime b.haircutDuration
            ((reservationsState.filter
                (fun r => r.barberId == id && r.date == dt)).map
              (fun r => ⟨r.time⟩))) := by
  constructor
  · rintro d rfl hbad
    exact getSchedule_badRequest_of_invalid reservationsState today id d hbad
  · intro b dt slots hok
    cases date with
    | none =>
        simp only [getSchedule] at hok
        cases hok
    | some d =>
      simp only [getSchedule] at hok
      by_cases he : d.isEmpty = true
      · rw [if_pos he] at hok
        cases hok
      · rw [if_neg he] at hok
        by_cases hf : isValidDateFormat d = true
        · rw [if_neg (by simp [hf])] at hok
          by_cases hp : isDateInPast d today = true
          · rw [if_pos hp] at hok
            cases hok
          · rw [if_neg hp] at hok
            cases hfind : demoBarbers.find? (fun x => x.id == id) with
            | none =>
                rw [hfind] at hok
                cases hok
            | some barber =>
                rw [hfind] at hok
                rw [ScheduleResponse.ok.injEq] at hok
                obtain ⟨rfl, rfl, rfl⟩ := hok
                refine ⟨rfl, hf, by simpa using hp,
                  List.mem_of_find?_eq_some hfind, ?_, rfl⟩
                have := List.find?_some hfind
                simpa using this
        · rw [if_pos (by simp [hf])] at hok
          cases hok

/-- Witness for C8: a malformed date is rejected with a 400 before any
lookup, for an existing barber id. -/
theorem claim_C8_witness :
    isValidDateFormat "bad-date" = false ∧
      ∃ msg, getSchedule demoReservations ⟨2024, 1, 1⟩ "barber-1"
        (some "bad-date") = .badRequest msg :=
  ⟨by decide,
    (claim_C8_validate_before_generate demoReservations ⟨2024, 1, 1⟩ "barber-1"
        (some "bad-date")).1 "bad-date" rfl (Or.inl (by decide))⟩

/-- C9: date validation precedes the barber lookup: a request whose
date is absent, malformed or in the past gets a 400 whatever the id,
and never the 404 "Barber not found" answer. -/
theorem claim_C9_date_errors_precede_lookup
    (reservationsState : List DemoReservation) (today : Date)
    (id : String) (date : Option String)
    (h : date = none ∨ ∃ d, date = some d ∧
        (isValidDateFormat d = false ∨ isDateInPast d today = true)) :
    (∃ msg, getSchedule reservationsState today id date = .badRequest msg)
    ∧ ∀ msg, getSchedule reservationsState today id date ≠ .notFound msg := by
  have hbr : ∃ msg, getSchedule reservationsState today id date = .badRequest msg := by
    rcases h with rfl | ⟨d, rfl, hbad⟩
    · exact ⟨"Date parameter is required", rfl⟩
    · exact getSchedule_badRequest_of_invalid reservationsState today id d hbad
  obtain ⟨m, hm⟩ := hbr
  refine ⟨⟨m, hm⟩, fun msg hcontra => ?_⟩
  rw [hm] at hcontra
  cases hcontra

/-- Witness for C9: a nonexistent barber id with a malformed date still
gets the 400, not the 404. -/
theorem claim_C9_witness :
    (∃ msg, getSchedule demoReservations ⟨2024, 1, 1⟩ "no-such-barber"
          (some "bad") = .badRequest msg)
      ∧ ∀ msg, getSchedule demoReservations ⟨2024, 1, 1⟩ "no-such-barber"
          (some "bad") ≠ .notFound msg :=
  claim_C9_date_errors_precede_lookup demoReservations ⟨2024, 1, 1⟩
    "no-such-barber" (some "bad")
    (Or.inr ⟨"bad", rfl, Or.inl (by decide)⟩)

/-- C10: in demo mode the barber list is filtered by case-insensitive
substring match on name and location, and with no query parameters the
full demo list is returned unchanged and in order. -/
theorem claim_C10_demo_list_filter :
    (∀ (s l : String) (b : Barber),
        b ∈ listBarbersDemo (some s) (some l) ↔
          b ∈ demoBarbers ∧
            strIncludes (strToLower b.fullName) (strToLower s) = true ∧
            strIncludes (strToLower b.manualLocation) (strToLower l) = true)
    ∧ listBarbersDemo none none = demoBarbers := by
  refine ⟨?_, rfl⟩
  intro s l b
  unfold listBarbersDemo
  by_cases hs : s.isEmpty = true
  · have h1 := strIncludes_of_isEmpty (strToLower b.fullName) s hs
    by_cases hl : l.isEmpty = true
    · have h2 := strIncludes_of_isEmpty (strToLower b.manualLocation) l hl
      simp [hs, hl, h1, h2]
    · simp [hs, hl, h1, List.mem_filter, and_assoc]
  · by_cases hl : l.isEmpty = true
    · have h2 := strIncludes_of_isEmpty (strToLower b.manualLocation) l hl
      simp [hs, hl, h2, List.mem_filter, and_assoc]
    · simp [hs, hl, List.mem_filter, and_assoc]
      tauto
